import Mathlib

/-!
# Organizations list view: state synchronisation and fetch orchestration

A shallow embedding of `src/pages/Organizations/views/Organizations.list.jsx`
(the `Organizations` React component) and theorems about it.

Modelling conventions

* JavaScript values that flow through the query-parameter objects are `Val`:
  `undefined`, a number, or a string.  Numbers are natural numbers (pages,
  page sizes and counts are non-negative integers in the data model); negative
  numbers, fractions and `NaN` as *inputs* are outside the model.  A natural
  number stands for the binary64 value it denotes, so only naturals that
  binary64 represents (all below `2^53`, and the multiples of the right powers
  of two above) occur as inputs.
* The one arithmetic expression, `Math.ceil(count / page_size)`, is computed
  as the runtime computes it: the exact quotient is rounded to binary64
  (nearest, ties to even) and then rounded up to an integer.
* A JavaScript object is an insertion-ordered list of key/value pairs (`Obj`).
* `this.setState(patch)` is a record update applied at once, in program order.
* `async fetchOrganizations` is split at its only suspension point
  (`await api.get(...)`) into `fetchStart` (lines 135-148, up to the call) and
  `fetchSettle` (lines 148-168, the continuation), so that two calls can be
  interleaved explicitly.
* The `qs` module (`encodeQueryString`, `parseQueryString`) and the
  string-to-number coercion of the JavaScript runtime are parameters (`Env`).
* `props.history` / `props.location` (react-router) are the record `History`.
-/

namespace Organizations

/-! ## Values and objects -/

/-- JavaScript values carried by query-parameter objects. -/
inductive Val where
  | undefined
  | num (n : Nat)
  | str (s : String)
  deriving DecidableEq

/-- The result of a numeric computation: a natural number, or one of the
non-integer results `NaN` / `Infinity`; `undefined` is the value of a state
field that was never assigned. -/
inductive Num where
  | undefined
  | nan
  | infinity
  | int (n : Nat)
  deriving DecidableEq

/-- A JavaScript object: own enumerable properties in insertion order. -/
abbrev Obj := List (String × Val)

/-- Property read `o[k]`: `undefined` when the key is absent. -/
def getProp : Obj → String → Val
  | [], _ => Val.undefined
  | (k', v) :: rest, k => if k' = k then v else getProp rest k

/-- Property write `o[k] = v`: overwrite in place, or append a new key. -/
def setProp : Obj → String → Val → Obj
  | [], k, v => [(k, v)]
  | (k', v') :: rest, k, v =>
    if k' = k then (k, v) :: rest else (k', v') :: setProp rest k v

/-- One source of `Object.assign(target, source)`: every property of `source`
is written to `target`, in order. -/
def objectAssign (target source : Obj) : Obj :=
  source.foldl (fun acc kv => setProp acc kv.1 kv.2) target

/-! ## Strings -/

/-- The test `s.startsWith('-')`. -/
def startsWithDash (s : String) : Bool :=
  match s.data with
  | c :: _ => c == '-'
  | [] => false

/-- The call `s.substring(1)`: the string without its first character.  (The
source applies it to a string whose first character is `-`, or to
`location.search`, whose first character is `?`; both are single UTF-16
units.) -/
def substring1 (s : String) : String :=
  ⟨s.data.drop 1⟩

/-! ## Data model -/

/-- A record of the collection; only `id` is read by the handlers. -/
structure Record where
  id : Nat
  name : String
  deriving DecidableEq

/-- The body `data` of a successful response: `{ count, results }`. -/
structure Response where
  count : Nat
  results : List Record
  deriving DecidableEq

/-- How `await api.get(API_ORGANIZATIONS, queryParams)` ends. -/
inductive Outcome where
  | resolved (data : Response)
  | rejected
  deriving DecidableEq

/-- The component's `this.state` (constructor, lines 48-58, plus `pageCount`,
which the constructor leaves unassigned). -/
structure State where
  page : Val
  page_size : Val
  sortedColumnKey : String
  sortOrder : String
  count : Option Nat
  pageCount : Num
  error : Option Bool
  loading : Bool
  results : List Record
  selected : List Nat
  deriving DecidableEq

/-- A history entry: `{ pathname, search }`. -/
structure Location where
  pathname : String
  search : String
  deriving DecidableEq

/-- The router props: the entries below the current one, the current entry
(`props.location`), and how many times `history.replace` has been invoked.
After a `history.replace` the router hands the new entry to the component as
`props.location`, so one record serves for both props. -/
structure History where
  past : List Location
  location : Location
  replaceCount : Nat
  deriving DecidableEq

/-- The method `history.replace(entry)`: overwrite the current entry. -/
def History.replace (h : History) (entry : Location) : History :=
  { h with location := entry, replaceCount := h.replaceCount + 1 }

/-- The component instance: `this.state` and the router part of `this.props`. -/
structure Component where
  state : State
  history : History
  deriving DecidableEq

/-- The collaborators imported from outside the file. -/
structure Env where
  /-- The function `parseQueryString` of the `qs` module. -/
  parseQueryString : String → Obj
  /-- The function `encodeQueryString` of the `qs` module. -/
  encodeQueryString : Obj → String
  /-- The runtime coercion of a string to a number; `none` is `NaN`. -/
  stringToNumber : String → Option Nat

/-- The field `defaultParams` (lines 35-39). -/
def defaultParams : Obj :=
  [("page", Val.num 1), ("page_size", Val.num 5), ("order_by", Val.str "name")]

/-- The field `pageSizeOptions` (line 41). -/
def pageSizeOptions : List Nat := [5, 10, 25, 50]

/-! ## Operations -/

/-- The method `getQueryParams(overrides)` (lines 72-79):
`Object.assign({}, this.defaultParams, searchParams, overrides)`. -/
def getQueryParams (env : Env) (props : History) (overrides : Obj) : Obj :=
  let search := props.location.search
  let searchParams := env.parseQueryString (substring1 search)
  objectAssign (objectAssign (objectAssign [] defaultParams) searchParams) overrides

/-- The constructor's state (lines 43-59). -/
def initialState (env : Env) (props : History) : State :=
  let queryParams := getQueryParams env props []
  { page := getProp queryParams "page"
    page_size := getProp queryParams "page_size"
    sortedColumnKey := "name"
    sortOrder := "ascending"
    count := none
    pageCount := Num.undefined
    error := none
    loading := true
    results := []
    selected := [] }

/-- The coercion applied to an operand of `/`. -/
def toNumber (env : Env) : Val → Option Nat
  | Val.undefined => none
  | Val.num n => some n
  | Val.str s => env.stringToNumber s

/-- The integer nearest to the quotient `a / b` of two naturals (`b > 0`), a
tie going to the even neighbour: the rounding rule of binary64 arithmetic. -/
def roundHalfEven (a b : Nat) : Nat :=
  let q := a / b
  let r := a % b
  if 2 * r < b then q
  else if b < 2 * r then q + 1
  else if q % 2 = 0 then q else q + 1

/-- The binary exponent of `x ≥ 1`, the greatest `e` with `2 ^ e ≤ x`, found by
halving (`fuel` bounds the number of halvings; `x` itself is enough). -/
def binaryExponent : Nat → Nat → Nat
  | 0, _ => 0
  | fuel + 1, x => if x < 2 then 0 else binaryExponent fuel (x / 2) + 1

/-- The value of `Math.ceil(c / s)` for numbers `c ≥ 0` and `s > 0` that are
integers.  The operator `/` returns the binary64 value nearest to the exact
quotient: with `e` the binary exponent of the quotient, that is the multiple
of `2 ^ (e - 52)` nearest to it (53 significant bits, ties to even).  Below
`1` the quotient of two finite numbers is positive and at most `1`, so it is
rounded up to `1`; from `2 ^ 52` on the binary64 value is itself an integer.
(Finite operands are below `2 ^ 1024`, so the quotient neither overflows nor
rounds to zero.) -/
def ceilBinary64Div (c s : Nat) : Nat :=
  if c = 0 then 0
  else if c < s then 1
  else
    let e := binaryExponent (c / s) (c / s)
    if e < 52 then
      let k := 52 - e
      let m := roundHalfEven (c * 2 ^ k) s
      (m + 2 ^ k - 1) / 2 ^ k
    else
      roundHalfEven c (s * 2 ^ (e - 52)) * 2 ^ (e - 52)

/-- The expression `Math.ceil(count / page_size)` (line 151): `page_size` is
coerced to a number; a `NaN` operand gives `NaN`, division by zero gives
`Infinity`, or `NaN` for `0 / 0`, and otherwise the binary64 quotient is
rounded up. -/
def mathCeilDiv (env : Env) (count : Nat) (page_size : Val) : Num :=
  match toNumber env page_size with
  | none => Num.nan
  | some 0 => if count = 0 then Num.nan else Num.infinity
  | some (s + 1) => Num.int (ceilBinary64Div count (s + 1))

/-- The method `updateUrl(queryParams)` (lines 124-132). -/
def updateUrl (env : Env) (c : Component) (queryParams : Obj) : Component :=
  let pathname := "/organizations"
  let search := "?" ++ env.encodeQueryString queryParams
  if search ≠ c.history.location.search then
    { c with history := c.history.replace { pathname := pathname, search := search } }
  else
    c

/-- The locals of `fetchOrganizations` that are live across the `await`. -/
structure Pending where
  queryParams : Obj
  page : Val
  page_size : Val
  sortOrder : String
  sortedColumnKey : String
  deriving DecidableEq

/-- The method `fetchOrganizations`, lines 135-148, up to the remote call: the
normalisation of `order_by`, `setState({ error: false, loading: true })`, and
the request issued with `queryParams`.  `none` is the `TypeError` raised by
`order_by.startsWith` when `order_by` is not a string (no state is written). -/
def fetchStart (c : Component) (queryParams : Obj) : Option (Component × Pending) :=
  match getProp queryParams "order_by" with
  | Val.str order_by =>
    let sortOrder := if startsWithDash order_by then "descending" else "ascending"
    let sortedColumnKey := if startsWithDash order_by then substring1 order_by else order_by
    some ({ c with state := { c.state with error := some false, loading := true } },
      { queryParams := queryParams
        page := getProp queryParams "page"
        page_size := getProp queryParams "page_size"
        sortOrder := sortOrder
        sortedColumnKey := sortedColumnKey })
  | _ => none

/-- The method `fetchOrganizations`, lines 148-168, from the resolution of the
remote call: the `try` body, the `catch` and the `finally`. -/
def fetchSettle (env : Env) (c : Component) (p : Pending) (o : Outcome) : Component :=
  let c1 :=
    match o with
    | Outcome.resolved data =>
      let pageCount := mathCeilDiv env data.count p.page_size
      updateUrl env
        { c with state := { c.state with
            count := some data.count
            page := p.page
            pageCount := pageCount
            page_size := p.page_size
            sortOrder := p.sortOrder
            sortedColumnKey := p.sortedColumnKey
            results := data.results
            selected := [] } }
        p.queryParams
    | Outcome.rejected =>
      { c with state := { c.state with error := some true } }
  { c1 with state := { c1.state with loading := false } }

/-- One whole, uninterrupted run of `fetchOrganizations(queryParams)` whose
remote call ends with `o`. -/
def fetchOrganizations (env : Env) (c : Component) (queryParams : Obj) (o : Outcome) :
    Option Component :=
  match fetchStart c queryParams with
  | some (c1, p) => some (fetchSettle env c1 p o)
  | none => none

/-- The method `componentDidMount` (lines 61-64), up to the remote call. -/
def componentDidMount (env : Env) (c : Component) : Option (Component × Pending) :=
  fetchStart c (getQueryParams env c.history [])

/-- The handler `onSort` (lines 81-93), up to the remote call. -/
def onSort (env : Env) (c : Component) (sortedColumnKey sortOrder : String) :
    Option (Component × Pending) :=
  let page_size := c.state.page_size
  let order_by := if sortOrder = "descending" then "-" ++ sortedColumnKey else sortedColumnKey
  let queryParams :=
    getQueryParams env c.history [("order_by", Val.str order_by), ("page_size", page_size)]
  fetchStart c queryParams

/-- The method `onSearch` (lines 66-70). -/
def onSearch (env : Env) (c : Component) : Option (Component × Pending) :=
  onSort env c c.state.sortedColumnKey c.state.sortOrder

/-- The handler `onSelectAll` (lines 104-110). -/
def onSelectAll (c : Component) (isSelected : Bool) : Component :=
  let results := c.state.results
  let selected := if isSelected then results.map (fun o => o.id) else []
  { c with state := { c.state with selected := selected } }

/-- The handler `onSelect` (lines 112-122). -/
def onSelect (c : Component) (id : Nat) : Component :=
  let selected := c.state.selected
  let isSelected := selected.contains id
  if isSelected then
    { c with state := { c.state with selected := selected.filter (fun s => s != id) } }
  else
    { c with state := { c.state with selected := selected ++ [id] } }

/-- The prop `isAllSelected` computed in `render` (line 201). -/
def isAllSelected (c : Component) : Bool :=
  c.state.selected.length == c.state.results.length

/-- Two overlapping calls of `fetchOrganizations`: call A is started, call B is
started before A's remote call resolves, B's remote call resolves (with `oB`),
and A's resolves after it (with `oA`). -/
def overlappingFetches (env : Env) (c : Component) (paramsA paramsB : Obj)
    (oA oB : Outcome) : Option Component :=
  match fetchStart c paramsA with
  | none => none
  | some (c1, pA) =>
    match fetchStart c1 paramsB with
    | none => none
    | some (c2, pB) => some (fetchSettle env (fetchSettle env c2 pB oB) pA oA)

/-! ## A concrete instance -/

/-- Renders a value the way it appears in a query string. -/
def sampleShow : Val → String
  | Val.undefined => "undefined"
  | Val.num n => toString n
  | Val.str s => s

/-- A sample environment: an empty query string parses to the empty object,
and an object is encoded as `k=v` pairs joined by `&`. -/
def sampleEnv : Env where
  parseQueryString := fun s => if s = "" then [] else [("search", Val.str s)]
  encodeQueryString := fun o => "&".intercalate (o.map (fun kv => kv.1 ++ "=" ++ sampleShow kv.2))
  stringToNumber := fun s => s.toNat?

/-- The router props of a view opened at `/organizations` with no query. -/
def sampleHistory : History :=
  { past := [], location := { pathname := "/organizations", search := "" }, replaceCount := 0 }

/-- A freshly constructed component. -/
def sampleComponent : Component :=
  { state := initialState sampleEnv sampleHistory, history := sampleHistory }

/-- A first page of two records out of 47. -/
def sampleResponseA : Response :=
  { count := 47, results := [{ id := 1, name := "alpha" }, { id := 2, name := "beta" }] }

/-- A second page of two records out of 47. -/
def sampleResponseB : Response :=
  { count := 47, results := [{ id := 6, name := "zeta" }, { id := 7, name := "eta" }] }

/-- The parameters of the sample call for page 2. -/
def samplePage2 : Obj :=
  [("page", Val.num 2), ("page_size", Val.num 5), ("order_by", Val.str "name")]

/-- The parameters of a call with three records to the page. -/
def samplePageSize3 : Obj :=
  [("page", Val.num 1), ("page_size", Val.num 3), ("order_by", Val.str "name")]

/-- A response that reports `2 ^ 60` records. -/
def sampleResponseLarge : Response :=
  { count := 2 ^ 60, results := [{ id := 1, name := "alpha" }] }

/-- A component showing `sampleResponseA` with record 2 selected. -/
def sampleLoaded : Component :=
  { state :=
      { page := Val.num 1
        page_size := Val.num 5
        sortedColumnKey := "name"
        sortOrder := "ascending"
        count := some 47
        pageCount := Num.int 10
        error := some false
        loading := false
        results := sampleResponseA.results
        selected := [2] }
    history := sampleHistory }

/-! ## Basic facts about the embedding -/

theorem getProp_setProp_same (o : Obj) (k : String) (v : Val) :
    getProp (setProp o k v) k = v := by
  induction o with
  | nil => simp [setProp, getProp]
  | cons kv rest ih =>
    obtain ⟨k', v'⟩ := kv
    by_cases hk : k' = k
    · simp [setProp, getProp, hk]
    · simp [setProp, getProp, hk, ih]

theorem getProp_setProp_ne (o : Obj) (k k' : String) (v : Val) (hne : k ≠ k') :
    getProp (setProp o k v) k' = getProp o k' := by
  induction o with
  | nil => simp [setProp, getProp, hne]
  | cons kv rest ih =>
    obtain ⟨k0, v0⟩ := kv
    by_cases hk : k0 = k
    · subst hk
      simp [setProp, getProp, hne]
    · by_cases hk' : k0 = k'
      · subst hk'
        simp [setProp, getProp, hk]
      · simp [setProp, getProp, hk, hk', ih]

theorem updateUrl_state (env : Env) (c : Component) (queryParams : Obj) :
    (updateUrl env c queryParams).state = c.state := by
  simp only [updateUrl]
  split <;> rfl

theorem fetchStart_of_str (c : Component) (queryParams : Obj) (order_by : String)
    (h : getProp queryParams "order_by" = Val.str order_by) :
    fetchStart c queryParams =
      some ({ c with state := { c.state with error := some false, loading := true } },
        { queryParams := queryParams
          page := getProp queryParams "page"
          page_size := getProp queryParams "page_size"
          sortOrder := if startsWithDash order_by then "descending" else "ascending"
          sortedColumnKey :=
            if startsWithDash order_by then substring1 order_by else order_by }) := by
  simp [fetchStart, h]

theorem fetchStart_spec (c : Component) (queryParams : Obj) (order_by : String)
    (h : getProp queryParams "order_by" = Val.str order_by) :
    ∃ c1 p, fetchStart c queryParams = some (c1, p) ∧
      c1.history = c.history ∧
      p.queryParams = queryParams ∧
      p.page = getProp queryParams "page" ∧
      p.page_size = getProp queryParams "page_size" :=
  ⟨_, _, fetchStart_of_str c queryParams order_by h, rfl, rfl, rfl, rfl⟩

theorem startsWithDash_dash_append (s : String) : startsWithDash ("-" ++ s) = true := by
  simp [startsWithDash, String.data_append]

theorem substring1_dash_append (s : String) : substring1 ("-" ++ s) = s := by
  simp [substring1, String.data_append]

theorem natCeil_div_least (c s : Nat) (hs : 0 < s) :
    c ≤ Nat.ceil ((c : ℚ) / (s : ℚ)) * s ∧
      ∀ m : Nat, c ≤ m * s → Nat.ceil ((c : ℚ) / (s : ℚ)) ≤ m := by
  have hs' : (0 : ℚ) < (s : ℚ) := by exact_mod_cast hs
  constructor
  · have h1 : (c : ℚ) / (s : ℚ) ≤ (Nat.ceil ((c : ℚ) / (s : ℚ)) : ℚ) := Nat.le_ceil _
    rw [div_le_iff₀ hs'] at h1
    exact_mod_cast h1
  · intro m hm
    rw [Nat.ceil_le, div_le_iff₀ hs']
    exact_mod_cast hm

theorem binaryExponent_le (fuel x : Nat) (hx : 1 ≤ x) : 2 ^ binaryExponent fuel x ≤ x := by
  induction fuel generalizing x with
  | zero => simpa [binaryExponent] using hx
  | succ n ih =>
    unfold binaryExponent
    split
    · simpa using hx
    · have h2 : 1 ≤ x / 2 := by omega
      have := ih (x / 2) h2
      rw [pow_succ]
      omega

theorem roundHalfEven_le (a b N : Nat) (hb : 0 < b) (h : a ≤ N * b) :
    roundHalfEven a b ≤ N := by
  have hq : a / b ≤ N := by
    rw [Nat.mul_comm] at h
    exact Nat.div_le_of_le_mul h
  have hdm : b * (a / b) + a % b = a := Nat.div_add_mod a b
  have hstrict : 0 < a % b → a / b < N := by
    intro hr
    by_contra hcon
    have hN : N ≤ a / b := by omega
    have : b * N ≤ b * (a / b) := Nat.mul_le_mul_left b hN
    rw [Nat.mul_comm N b] at h
    omega
  unfold roundHalfEven
  simp only []
  split
  · exact hq
  · split
    · have := hstrict (by omega)
      omega
    · split
      · exact hq
      · have := hstrict (by omega)
        omega

theorem lt_roundHalfEven (a b M : Nat) (hb : 0 < b) (h : (2 * M + 1) * b < 2 * a) :
    M < roundHalfEven a b := by
  have hdm : b * (a / b) + a % b = a := Nat.div_add_mod a b
  have hr : a % b < b := Nat.mod_lt a hb
  have hexp : (2 * M + 1) * b = 2 * (b * M) + b := by ring
  have hq : M ≤ a / b := by
    by_contra hcon
    have hlt : a / b + 1 ≤ M := by omega
    have : b * (a / b + 1) ≤ b * M := Nat.mul_le_mul_left b hlt
    rw [Nat.mul_add, Nat.mul_one] at this
    omega
  have hup : a / b ≤ M → b < 2 * (a % b) := by
    intro hle
    have : b * (a / b) ≤ b * M := Nat.mul_le_mul_left b hle
    omega
  unfold roundHalfEven
  simp only []
  split
  · by_contra hcon
    have := hup (by omega)
    omega
  · split
    · omega
    · split
      · by_contra hcon
        have := hup (by omega)
        omega
      · omega

/-- Below `2 ^ 53` the binary64 quotient rounds up to the exact ceiling. -/
theorem ceilBinary64Div_exact (c s : Nat) (hs : 0 < s) (hc : c < 2 ^ 53) :
    c ≤ ceilBinary64Div c s * s ∧ ∀ m : Nat, c ≤ m * s → ceilBinary64Div c s ≤ m := by
  unfold ceilBinary64Div
  split
  · rename_i h0
    subst h0
    simp
  · rename_i h0
    split
    · rename_i hlt
      refine ⟨by omega, ?_⟩
      intro m hm
      rcases Nat.eq_zero_or_pos m with rfl | hpos
      · simp at hm; omega
      · exact hpos
    · rename_i hge
      have hge' : s ≤ c := by omega
      have hdiv : 1 ≤ c / s := Nat.div_pos hge' hs
      have hexp : 2 ^ binaryExponent (c / s) (c / s) ≤ c / s := binaryExponent_le _ _ hdiv
      have hse : 2 ^ binaryExponent (c / s) (c / s) * s ≤ c :=
        (Nat.le_div_iff_mul_le hs).1 hexp
      generalize binaryExponent (c / s) (c / s) = e at hse
      obtain ⟨n, hn1, hn2⟩ : ∃ n, c ≤ n * s ∧ ∀ m : Nat, c ≤ m * s → n ≤ m := by
        refine ⟨(c + s - 1) / s, ?_, ?_⟩
        · have := Nat.div_add_mod (c + s - 1) s
          have := Nat.mod_lt (c + s - 1) hs
          rw [Nat.mul_comm]
          omega
        · intro m hm
          rw [Nat.div_le_iff_le_mul_add_pred hs]
          rw [Nat.mul_comm] at hm
          omega
      have hnpos : 1 ≤ n := by
        rcases Nat.eq_zero_or_pos n with rfl | hpos
        · simp at hn1; omega
        · exact hpos
      have hnlt : (n - 1) * s < c := by
        by_contra hcon
        have := hn2 (n - 1) (by omega)
        omega
      simp only []
      split
      · rename_i he
        have hk : 52 - e + 1 + e = 53 := by omega
        generalize 52 - e = k at hk
        have hsk : s < 2 ^ (k + 1) := by
          have h1 : 2 ^ e * s < 2 ^ e * 2 ^ (k + 1) := by
            rw [← pow_add, Nat.add_comm e, hk]
            omega
          exact Nat.lt_of_mul_lt_mul_left h1
        have hpk : 0 < 2 ^ k := Nat.two_pow_pos k
        have hle : roundHalfEven (c * 2 ^ k) s ≤ n * 2 ^ k := by
          apply roundHalfEven_le _ _ _ hs
          calc c * 2 ^ k ≤ n * s * 2 ^ k := Nat.mul_le_mul_right _ hn1
            _ = n * 2 ^ k * s := by ring
        have hlt : (n - 1) * 2 ^ k < roundHalfEven (c * 2 ^ k) s := by
          apply lt_roundHalfEven _ _ _ hs
          have h1 : ((n - 1) * s + 1) * 2 ^ k ≤ c * 2 ^ k := Nat.mul_le_mul_right _ hnlt
          have h2 : (2 * ((n - 1) * 2 ^ k) + 1) * s + 2 ^ (k + 1)
              = 2 * (((n - 1) * s + 1) * 2 ^ k) + s := by
            rw [pow_succ]; ring
          omega
        have hres : (roundHalfEven (c * 2 ^ k) s + 2 ^ k - 1) / 2 ^ k = n := by
          apply Nat.div_eq_of_lt_le
          · have : n * 2 ^ k = (n - 1) * 2 ^ k + 2 ^ k := by
              conv_lhs => rw [show n = (n - 1) + 1 by omega]
              ring
            omega
          · have : (n + 1) * 2 ^ k = n * 2 ^ k + 2 ^ k := by ring
            omega
        rw [hres]
        exact ⟨hn1, hn2⟩
      · rename_i he
        have hs1 : s = 1 := by
          have h52 : 2 ^ 52 ≤ 2 ^ e := Nat.pow_le_pow_right (by decide) (by omega)
          by_contra hne
          have h2 : 2 ≤ s := by omega
          have : 2 ^ e * 2 ≤ 2 ^ e * s := Nat.mul_le_mul_left _ h2
          have h53 : (2:Nat) ^ 53 = 2 ^ 52 * 2 := by norm_num
          omega
        have he52 : e = 52 := by
          by_contra hne
          have h53 : 2 ^ 53 ≤ 2 ^ e := Nat.pow_le_pow_right (by decide) (by omega)
          subst hs1
          omega
        subst hs1
        subst he52
        have hr : roundHalfEven c 1 = c := by
          simp [roundHalfEven, Nat.mod_one]
        simp only [Nat.sub_self, pow_zero, Nat.mul_one, hr]
        exact ⟨le_refl _, fun m hm => hm⟩

theorem updateUrl_history (env : Env) (c : Component) (queryParams : Obj) :
    (updateUrl env c queryParams).history =
      if "?" ++ env.encodeQueryString queryParams ≠ c.history.location.search then
        c.history.replace
          { pathname := "/organizations", search := "?" ++ env.encodeQueryString queryParams }
      else c.history := by
  simp only [updateUrl]
  split <;> rfl

theorem updateUrl_search (env : Env) (c : Component) (queryParams : Obj) :
    (updateUrl env c queryParams).history.location.search =
      "?" ++ env.encodeQueryString queryParams := by
  rw [updateUrl_history]
  split
  · rfl
  · rename_i hne
    simp only [ne_eq, not_not] at hne
    exact hne.symm

theorem fetchSettle_resolved_history (env : Env) (c : Component) (p : Pending)
    (data : Response) :
    (fetchSettle env c p (Outcome.resolved data)).history =
      (updateUrl env c p.queryParams).history := by
  simp only [fetchSettle, updateUrl_history]

theorem getQueryParams_order_by (env : Env) (props : History) (v w : Val) :
    getProp (getQueryParams env props [("order_by", v), ("page_size", w)]) "order_by" = v := by
  simp only [getQueryParams, objectAssign, List.foldl_cons, List.foldl_nil]
  rw [getProp_setProp_ne _ _ _ _ (by decide), getProp_setProp_same]

theorem getQueryParams_page_size (env : Env) (props : History) (v w : Val) :
    getProp (getQueryParams env props [("order_by", v), ("page_size", w)]) "page_size" = w := by
  simp only [getQueryParams, objectAssign, List.foldl_cons, List.foldl_nil]
  rw [getProp_setProp_same]

theorem onSort_ascending (env : Env) (c : Component) (key : String) :
    onSort env c key "ascending" =
      fetchStart c (getQueryParams env c.history
        [("order_by", Val.str key), ("page_size", c.state.page_size)]) := by
  have hd : ¬ ("ascending" = "descending") := by decide
  simp only [onSort, hd, if_false]

theorem onSort_descending (env : Env) (c : Component) (key : String) :
    onSort env c key "descending" =
      fetchStart c (getQueryParams env c.history
        [("order_by", Val.str ("-" ++ key)), ("page_size", c.state.page_size)]) := by
  simp only [onSort, if_true]

/-! ## The fetch cycle -/

/-- C1: for every component state and every query-parameter object whose
`order_by` is a string, a run of `fetchOrganizations` whose remote call
succeeds ends in a state where `selected` is empty and `results`, `count`,
`page`, `page_size` are those of the response and of the parameters. -/
theorem fetch_success_resets_selection (env : Env) (c : Component) (queryParams : Obj)
    (order_by : String) (data : Response)
    (h : getProp queryParams "order_by" = Val.str order_by) :
    ∃ c1, fetchOrganizations env c queryParams (Outcome.resolved data) = some c1 ∧
      c1.state.selected = [] ∧
      c1.state.results = data.results ∧
      c1.state.count = some data.count ∧
      c1.state.page = getProp queryParams "page" ∧
      c1.state.page_size = getProp queryParams "page_size" := by
  refine ⟨_, by rw [fetchOrganizations, fetchStart_of_str c queryParams order_by h], ?_⟩
  simp [fetchSettle, updateUrl_state]

theorem fetch_success_resets_selection_witness :
    getProp defaultParams "order_by" = Val.str "name" ∧
    ∃ c1, fetchOrganizations sampleEnv sampleLoaded defaultParams
        (Outcome.resolved sampleResponseB) = some c1 ∧
      c1.state.selected = [] ∧
      c1.state.results = sampleResponseB.results ∧
      c1.state.count = some sampleResponseB.count ∧
      c1.state.page = getProp defaultParams "page" ∧
      c1.state.page_size = getProp defaultParams "page_size" :=
  ⟨by decide, fetch_success_resets_selection sampleEnv sampleLoaded defaultParams "name"
    sampleResponseB (by decide)⟩

/-- C3: for every component state and every query-parameter object whose
`order_by` is a string, a run of `fetchOrganizations` whose remote call fails
ends with `error` true, with `results`, `count`, `page`, `pageCount`,
`page_size`, `sortOrder`, `sortedColumnKey` and `selected` as they were before
the call, and with the history untouched (`history.replace` is not invoked). -/
theorem fetch_failure_preserves_state (env : Env) (c : Component) (queryParams : Obj)
    (order_by : String) (h : getProp queryParams "order_by" = Val.str order_by) :
    ∃ c1, fetchOrganizations env c queryParams Outcome.rejected = some c1 ∧
      c1.state.error = some true ∧
      c1.state.results = c.state.results ∧
      c1.state.count = c.state.count ∧
      c1.state.page = c.state.page ∧
      c1.state.pageCount = c.state.pageCount ∧
      c1.state.page_size = c.state.page_size ∧
      c1.state.sortOrder = c.state.sortOrder ∧
      c1.state.sortedColumnKey = c.state.sortedColumnKey ∧
      c1.state.selected = c.state.selected ∧
      c1.history = c.history ∧
      c1.history.replaceCount = c.history.replaceCount := by
  refine ⟨_, by rw [fetchOrganizations, fetchStart_of_str c queryParams order_by h], ?_⟩
  simp [fetchSettle]

theorem fetch_failure_preserves_state_witness :
    getProp defaultParams "order_by" = Val.str "name" ∧
    ∃ c1, fetchOrganizations sampleEnv sampleLoaded defaultParams Outcome.rejected = some c1 ∧
      c1.state.error = some true ∧
      c1.state.results = sampleLoaded.state.results ∧
      c1.state.count = sampleLoaded.state.count ∧
      c1.state.page = sampleLoaded.state.page ∧
      c1.state.pageCount = sampleLoaded.state.pageCount ∧
      c1.state.page_size = sampleLoaded.state.page_size ∧
      c1.state.sortOrder = sampleLoaded.state.sortOrder ∧
      c1.state.sortedColumnKey = sampleLoaded.state.sortedColumnKey ∧
      c1.state.selected = sampleLoaded.state.selected ∧
      c1.history = sampleLoaded.history ∧
      c1.history.replaceCount = sampleLoaded.history.replaceCount :=
  ⟨by decide, fetch_failure_preserves_state sampleEnv sampleLoaded defaultParams "name"
    (by decide)⟩

/-- C9: for a query-parameter object whose `order_by` is a string,
`fetchOrganizations` first sets `loading` to true and `error` to false and
leaves `results` as they are; once the cycle settles, `loading` is false
whatever the outcome, and `error` is true exactly when the remote call
failed (and false when it succeeded), so `error` true implies `loading`
false. -/
theorem fetch_lifecycle_flags (env : Env) (c : Component) (queryParams : Obj)
    (order_by : String) (h : getProp queryParams "order_by" = Val.str order_by) :
    ∃ c1 p, fetchStart c queryParams = some (c1, p) ∧
      c1.state.loading = true ∧
      c1.state.error = some false ∧
      c1.state.results = c.state.results ∧
      ∀ o : Outcome,
        fetchOrganizations env c queryParams o = some (fetchSettle env c1 p o) ∧
        (fetchSettle env c1 p o).state.loading = false ∧
        ((fetchSettle env c1 p o).state.error = some true ↔ o = Outcome.rejected) ∧
        ((fetchSettle env c1 p o).state.error = some false ↔ o ≠ Outcome.rejected) := by
  refine ⟨_, _, fetchStart_of_str c queryParams order_by h, rfl, rfl, rfl, ?_⟩
  intro o
  refine ⟨by rw [fetchOrganizations, fetchStart_of_str c queryParams order_by h], ?_⟩
  cases o <;> simp [fetchSettle, updateUrl_state]

theorem fetch_lifecycle_flags_witness :
    getProp defaultParams "order_by" = Val.str "name" ∧
    ∃ c1 p, fetchStart sampleLoaded defaultParams = some (c1, p) ∧
      c1.state.loading = true ∧
      c1.state.error = some false ∧
      c1.state.results = sampleLoaded.state.results ∧
      ∀ o : Outcome,
        fetchOrganizations sampleEnv sampleLoaded defaultParams o =
          some (fetchSettle sampleEnv c1 p o) ∧
        (fetchSettle sampleEnv c1 p o).state.loading = false ∧
        ((fetchSettle sampleEnv c1 p o).state.error = some true ↔ o = Outcome.rejected) ∧
        ((fetchSettle sampleEnv c1 p o).state.error = some false ↔ o ≠ Outcome.rejected) :=
  ⟨by decide, fetch_lifecycle_flags sampleEnv sampleLoaded defaultParams "name" (by decide)⟩

/-- C7, as the code has it: after a successful `fetchOrganizations` with
response count `c < 2^53` and a numeric `page_size` `s > 0`, `pageCount` is the
integer `ceil(c / s)`: the least `n` with `n * s ≥ c`; with `c = 47` and
`s = 5` it is `10`. -/
theorem fetch_success_pageCount (env : Env) (c : Component) (queryParams : Obj)
    (order_by : String) (data : Response) (s : Nat)
    (h : getProp queryParams "order_by" = Val.str order_by)
    (hsize : getProp queryParams "page_size" = Val.num s) (hs : 0 < s)
    (hcount : data.count < 2 ^ 53) :
    ∃ c1 n, fetchOrganizations env c queryParams (Outcome.resolved data) = some c1 ∧
      c1.state.pageCount = Num.int n ∧
      n = Nat.ceil ((data.count : ℚ) / (s : ℚ)) ∧
      data.count ≤ n * s ∧
      (∀ m : Nat, data.count ≤ m * s → n ≤ m) ∧
      (data.count = 47 → s = 5 → n = 10) := by
  obtain ⟨s', rfl⟩ : ∃ s', s = s' + 1 := ⟨s - 1, by omega⟩
  have hleast := natCeil_div_least data.count (s' + 1) hs
  have hexact := ceilBinary64Div_exact data.count (s' + 1) hs hcount
  refine ⟨_, ceilBinary64Div data.count (s' + 1),
    by rw [fetchOrganizations, fetchStart_of_str c queryParams order_by h], ?_, ?_,
    hexact.1, hexact.2, ?_⟩
  · simp [fetchSettle, updateUrl_state, hsize, mathCeilDiv, toNumber]
  · exact le_antisymm (hexact.2 _ hleast.1) (hleast.2 _ hexact.1)
  · intro h47 h5
    have hs5 : s' + 1 = 5 := h5
    rw [h47, hs5] at hexact
    have h1 := hexact.1
    have h2 := hexact.2 10 (by norm_num)
    rw [h47, hs5]
    omega

theorem fetch_success_pageCount_witness :
    (getProp defaultParams "order_by" = Val.str "name" ∧
      getProp defaultParams "page_size" = Val.num 5 ∧ 0 < 5 ∧
      sampleResponseA.count < 2 ^ 53) ∧
    ∃ c1 n, fetchOrganizations sampleEnv sampleLoaded defaultParams
        (Outcome.resolved sampleResponseA) = some c1 ∧
      c1.state.pageCount = Num.int n ∧
      n = Nat.ceil ((sampleResponseA.count : ℚ) / ((5 : Nat) : ℚ)) ∧
      sampleResponseA.count ≤ n * 5 ∧
      (∀ m : Nat, sampleResponseA.count ≤ m * 5 → n ≤ m) ∧
      (sampleResponseA.count = 47 → 5 = 5 → n = 10) :=
  ⟨⟨by decide, by decide, by decide, by decide⟩,
    fetch_success_pageCount sampleEnv sampleLoaded defaultParams "name" sampleResponseA 5
      (by decide) (by decide) (by decide) (by decide)⟩

/-- C7, as stated, fails above `2^53`: with response count `2^60` and
`page_size = 3` the successful fetch leaves `pageCount = 384307168202282304`,
and `384307168202282304 * 3 < 2^60`, so `pageCount` is not the least `n` with
`n * 3 ≥ count` (that is `384307168202282326`). -/
theorem fetch_success_pageCount_large_count :
    ∃ c1, fetchOrganizations sampleEnv sampleLoaded samplePageSize3
        (Outcome.resolved sampleResponseLarge) = some c1 ∧
      getProp samplePageSize3 "page_size" = Val.num 3 ∧
      sampleResponseLarge.count = 2 ^ 60 ∧
      c1.state.pageCount = Num.int 384307168202282304 ∧
      ¬ (sampleResponseLarge.count ≤ 384307168202282304 * 3) ∧
      c1.state.pageCount ≠ Num.int 384307168202282326 := by
  refine ⟨_, rfl, ?_, ?_, ?_, ?_, ?_⟩ <;> decide

/-! ## Sorting -/

/-- C2, as the code has it: `onSort` applies the order it is given and does not
invert it.  `onSort('name', 'ascending')` issues a fetch whose `order_by` is
`'name'` and, when that fetch succeeds, leaves `sortOrder = 'ascending'`;
`onSort('name', 'descending')` issues a fetch whose `order_by` is `'-name'`
and, when it succeeds, leaves `sortOrder = 'descending'`. -/
theorem onSort_applies_given_order (env : Env) (c : Component) (data : Response) :
    (∃ c1 p, onSort env c "name" "ascending" = some (c1, p) ∧
      getProp p.queryParams "order_by" = Val.str "name" ∧
      (fetchSettle env c1 p (Outcome.resolved data)).state.sortOrder = "ascending" ∧
      (fetchSettle env c1 p (Outcome.resolved data)).state.sortedColumnKey = "name") ∧
    (∃ c1 p, onSort env c "name" "descending" = some (c1, p) ∧
      getProp p.queryParams "order_by" = Val.str "-name" ∧
      (fetchSettle env c1 p (Outcome.resolved data)).state.sortOrder = "descending" ∧
      (fetchSettle env c1 p (Outcome.resolved data)).state.sortedColumnKey = "name") := by
  constructor
  · have h := getQueryParams_order_by env c.history (Val.str "name") c.state.page_size
    have hrun := (onSort_ascending env c "name").trans (fetchStart_of_str c _ "name" h)
    refine ⟨_, _, hrun, h, ?_, ?_⟩
    · simp [fetchSettle, updateUrl_state, startsWithDash]
    · simp [fetchSettle, updateUrl_state, startsWithDash]
  · have h := getQueryParams_order_by env c.history (Val.str ("-" ++ "name")) c.state.page_size
    have hrun := (onSort_descending env c "name").trans (fetchStart_of_str c _ _ h)
    refine ⟨_, _, hrun, h, ?_, ?_⟩
    · simp [fetchSettle, updateUrl_state, startsWithDash]
    · simp [fetchSettle, updateUrl_state, startsWithDash, substring1]

/-- C2, as stated, fails: on the sample component `onSort('name', 'ascending')`
issues a fetch whose `order_by` is `'name'`, not `'-name'`, and the successful
fetch leaves `sortOrder = 'ascending'`, not `'descending'`. -/
theorem onSort_ascending_not_inverted :
    ∃ c1 p, onSort sampleEnv sampleLoaded "name" "ascending" = some (c1, p) ∧
      getProp p.queryParams "order_by" = Val.str "name" ∧
      getProp p.queryParams "order_by" ≠ Val.str "-name" ∧
      (fetchSettle sampleEnv c1 p (Outcome.resolved sampleResponseA)).state.sortOrder
        = "ascending" ∧
      (fetchSettle sampleEnv c1 p (Outcome.resolved sampleResponseA)).state.sortOrder
        ≠ "descending" := by
  refine ⟨_, _, rfl, ?_, ?_, ?_, ?_⟩ <;> decide

/-- C10: for every column key that does not start with `-` and every sort order
among `'ascending'` and `'descending'`, `onSort(key, sortOrder)` followed by a
successful fetch leaves `sortedColumnKey = key`, `sortOrder` as given and
`page_size` as it was in the state before the call; so `onSearch`, which
passes the state's own key and order, leaves the sort fields unchanged. -/
theorem onSort_then_fetch_roundtrip (env : Env) (c : Component) (key order : String)
    (data : Response) (hkey : startsWithDash key = false)
    (horder : order = "ascending" ∨ order = "descending") :
    ∃ c1 p, onSort env c key order = some (c1, p) ∧
      (fetchSettle env c1 p (Outcome.resolved data)).state.sortedColumnKey = key ∧
      (fetchSettle env c1 p (Outcome.resolved data)).state.sortOrder = order ∧
      (fetchSettle env c1 p (Outcome.resolved data)).state.page_size = c.state.page_size ∧
      (key = c.state.sortedColumnKey → order = c.state.sortOrder →
        onSearch env c = some (c1, p) ∧
        (fetchSettle env c1 p (Outcome.resolved data)).state.sortedColumnKey
          = c.state.sortedColumnKey ∧
        (fetchSettle env c1 p (Outcome.resolved data)).state.sortOrder
          = c.state.sortOrder) := by
  have hsize := fun v => getQueryParams_page_size env c.history v c.state.page_size
  rcases horder with rfl | rfl
  · have h := getQueryParams_order_by env c.history (Val.str key) c.state.page_size
    have hrun := (onSort_ascending env c key).trans (fetchStart_of_str c _ key h)
    refine ⟨_, _, hrun, ?_, ?_, ?_, ?_⟩
    · simp [fetchSettle, updateUrl_state, hkey]
    · simp [fetchSettle, updateUrl_state, hkey]
    · simp only [fetchSettle, updateUrl_state]
      exact hsize _
    · intro hk ho
      refine ⟨?_, ?_, ?_⟩
      · rw [onSearch, ← hk, ← ho]
        exact hrun
      · rw [← hk]
        simp [fetchSettle, updateUrl_state, hkey]
      · rw [← ho]
        simp [fetchSettle, updateUrl_state, hkey]
  · have h := getQueryParams_order_by env c.history (Val.str ("-" ++ key)) c.state.page_size
    have hrun := (onSort_descending env c key).trans (fetchStart_of_str c _ _ h)
    refine ⟨_, _, hrun, ?_, ?_, ?_, ?_⟩
    · simp [fetchSettle, updateUrl_state, startsWithDash_dash_append, substring1_dash_append]
    · simp [fetchSettle, updateUrl_state, startsWithDash_dash_append]
    · simp only [fetchSettle, updateUrl_state]
      exact hsize _
    · intro hk ho
      refine ⟨?_, ?_, ?_⟩
      · rw [onSearch, ← hk, ← ho]
        exact hrun
      · rw [← hk]
        simp [fetchSettle, updateUrl_state, startsWithDash_dash_append,
          substring1_dash_append]
      · rw [← ho]
        simp [fetchSettle, updateUrl_state, startsWithDash_dash_append]

theorem onSort_then_fetch_roundtrip_witness :
    (startsWithDash "name" = false ∧ ("descending" = "ascending" ∨ "descending" = "descending")) ∧
    ∃ c1 p, onSort sampleEnv sampleLoaded "name" "descending" = some (c1, p) ∧
      (fetchSettle sampleEnv c1 p (Outcome.resolved sampleResponseA)).state.sortedColumnKey
        = "name" ∧
      (fetchSettle sampleEnv c1 p (Outcome.resolved sampleResponseA)).state.sortOrder
        = "descending" ∧
      (fetchSettle sampleEnv c1 p (Outcome.resolved sampleResponseA)).state.page_size
        = sampleLoaded.state.page_size ∧
      ("name" = sampleLoaded.state.sortedColumnKey →
        "descending" = sampleLoaded.state.sortOrder →
        onSearch sampleEnv sampleLoaded = some (c1, p) ∧
        (fetchSettle sampleEnv c1 p (Outcome.resolved sampleResponseA)).state.sortedColumnKey
          = sampleLoaded.state.sortedColumnKey ∧
        (fetchSettle sampleEnv c1 p (Outcome.resolved sampleResponseA)).state.sortOrder
          = sampleLoaded.state.sortOrder) :=
  ⟨⟨by decide, by decide⟩,
    onSort_then_fetch_roundtrip sampleEnv sampleLoaded "name" "descending" sampleResponseA
      (by decide) (by decide)⟩

/-! ## Overlapping fetches -/

/-- C4, as the code has it: the component keeps no request counter, so the
response that resolves last wins.  If call A is started, call B is started
before A resolves, both succeed and A's response resolves after B's, the
final state shows A's results, count, page and page size (the stale response
is applied, not discarded), with `selected` empty and `loading` false. -/
theorem overlapping_fetches_last_resolved_wins (env : Env) (c : Component)
    (paramsA paramsB : Obj) (orderA orderB : String) (dataA dataB : Response)
    (hA : getProp paramsA "order_by" = Val.str orderA)
    (hB : getProp paramsB "order_by" = Val.str orderB) :
    ∃ c4, overlappingFetches env c paramsA paramsB
        (Outcome.resolved dataA) (Outcome.resolved dataB) = some c4 ∧
      c4.state.results = dataA.results ∧
      c4.state.count = some dataA.count ∧
      c4.state.page = getProp paramsA "page" ∧
      c4.state.page_size = getProp paramsA "page_size" ∧
      c4.state.selected = [] ∧
      c4.state.loading = false := by
  obtain ⟨c1, pA, hstartA, -, -, hpageA, hsizeA⟩ := fetchStart_spec c paramsA orderA hA
  obtain ⟨c2, pB, hstartB, -, -, -, -⟩ := fetchStart_spec c1 paramsB orderB hB
  refine ⟨fetchSettle env (fetchSettle env c2 pB (Outcome.resolved dataB)) pA
    (Outcome.resolved dataA), ?_, ?_⟩
  · simp only [overlappingFetches, hstartA, hstartB]
  · simp [fetchSettle, updateUrl_state, hpageA, hsizeA]

theorem overlapping_fetches_last_resolved_wins_witness :
    (getProp defaultParams "order_by" = Val.str "name" ∧
      getProp samplePage2 "order_by" = Val.str "name") ∧
    ∃ c4, overlappingFetches sampleEnv sampleComponent defaultParams samplePage2
        (Outcome.resolved sampleResponseA) (Outcome.resolved sampleResponseB) = some c4 ∧
      c4.state.results = sampleResponseA.results ∧
      c4.state.count = some sampleResponseA.count ∧
      c4.state.page = getProp defaultParams "page" ∧
      c4.state.page_size = getProp defaultParams "page_size" ∧
      c4.state.selected = [] ∧
      c4.state.loading = false :=
  ⟨⟨by decide, by decide⟩,
    overlapping_fetches_last_resolved_wins sampleEnv sampleComponent defaultParams samplePage2
      "name" "name" sampleResponseA sampleResponseB (by decide) (by decide)⟩

/-- C4, as stated, fails: on the sample component, call A (page 1) is started,
call B (page 2) is started before A resolves, B resolves and then A resolves;
the final state shows A's results and page 1, not B's results and page 2. -/
theorem overlapping_fetches_stale_response_applied :
    ∃ c4, overlappingFetches sampleEnv sampleComponent defaultParams samplePage2
        (Outcome.resolved sampleResponseA) (Outcome.resolved sampleResponseB) = some c4 ∧
      getProp defaultParams "page" = Val.num 1 ∧
      getProp samplePage2 "page" = Val.num 2 ∧
      c4.state.results = sampleResponseA.results ∧
      c4.state.results ≠ sampleResponseB.results ∧
      c4.state.page = Val.num 1 ∧
      c4.state.page ≠ Val.num 2 := by
  refine ⟨_, rfl, ?_, ?_, ?_, ?_, ?_, ?_⟩ <;> decide

/-! ## Selection -/

/-- C5: for every selection list and every id, `onSelect(id)` applied twice in
succession gives a selection with the same members as the original and
changes no other field of the component; when the original list has no
duplicates, the result is a permutation of it. -/
theorem onSelect_twice (c : Component) (id : Nat) :
    (∀ x, x ∈ (onSelect (onSelect c id) id).state.selected ↔ x ∈ c.state.selected) ∧
    { (onSelect (onSelect c id) id).state with selected := c.state.selected } = c.state ∧
    (onSelect (onSelect c id) id).history = c.history ∧
    (c.state.selected.Nodup →
      ((onSelect (onSelect c id) id).state.selected).Perm c.state.selected) := by
  by_cases hmem : id ∈ c.state.selected
  · have hnot : id ∉ c.state.selected.filter (fun s => s != id) := by
      simp [List.mem_filter]
    have hsel : (onSelect (onSelect c id) id).state.selected
        = c.state.selected.filter (fun s => s != id) ++ [id] := by
      simp [onSelect, hmem]
    have hmemiff : ∀ x, x ∈ c.state.selected.filter (fun s => s != id) ++ [id]
        ↔ x ∈ c.state.selected := by
      intro x
      simp only [List.mem_append, List.mem_filter, List.mem_singleton, bne_iff_ne, ne_eq]
      constructor
      · rintro (⟨hx, _⟩ | rfl)
        · exact hx
        · exact hmem
      · intro hx
        by_cases hxi : x = id
        · exact Or.inr hxi
        · exact Or.inl ⟨hx, hxi⟩
    refine ⟨?_, ?_, ?_, ?_⟩
    · rw [hsel]
      exact hmemiff
    · simp [onSelect, hmem]
    · simp [onSelect, hmem]
    · intro hnd
      rw [hsel]
      have hnd2 : (c.state.selected.filter (fun s => s != id) ++ [id]).Nodup := by
        rw [List.nodup_append]
        refine ⟨hnd.filter _, List.nodup_singleton id, ?_⟩
        intro a ha hb
        rw [List.mem_singleton] at hb
        subst hb
        exact hnot ha
      exact (List.perm_ext_iff_of_nodup hnd2 hnd).2 hmemiff
  · have hfilter : c.state.selected.filter (fun s => s != id) = c.state.selected := by
      rw [List.filter_eq_self]
      intro a ha
      simp only [bne_iff_ne, ne_eq]
      rintro rfl
      exact hmem ha
    have hsel : (onSelect (onSelect c id) id).state.selected = c.state.selected := by
      simp [onSelect, hmem, List.filter_append, hfilter]
    refine ⟨?_, ?_, ?_, ?_⟩
    · intro x
      rw [hsel]
    · simp [onSelect, hmem]
    · simp [onSelect, hmem]
    · intro _
      rw [hsel]

theorem onSelect_twice_witness :
    (∀ x, x ∈ (onSelect (onSelect sampleLoaded 2) 2).state.selected
      ↔ x ∈ sampleLoaded.state.selected) ∧
    { (onSelect (onSelect sampleLoaded 2) 2).state with
        selected := sampleLoaded.state.selected } = sampleLoaded.state ∧
    (onSelect (onSelect sampleLoaded 2) 2).history = sampleLoaded.history ∧
    sampleLoaded.state.selected.Nodup ∧
    ((onSelect (onSelect sampleLoaded 2) 2).state.selected).Perm sampleLoaded.state.selected :=
  have h := onSelect_twice sampleLoaded 2
  ⟨h.1, h.2.1, h.2.2.1, by decide, h.2.2.2 (by decide)⟩

/-- C6: for every component state, after `onSelectAll(true)` `selected` is the
list of ids of the loaded `results`, in order, so `isAllSelected` is true;
after `onSelectAll(false)` `selected` is empty; in both cases `results` and
every other field are unchanged. -/
theorem onSelectAll_consistent (c : Component) :
    (onSelectAll c true).state.selected = c.state.results.map (fun o => o.id) ∧
    isAllSelected (onSelectAll c true) = true ∧
    (onSelectAll c false).state.selected = [] ∧
    ∀ isSelected : Bool,
      (onSelectAll c isSelected).state.results = c.state.results ∧
      { (onSelectAll c isSelected).state with selected := c.state.selected } = c.state ∧
      (onSelectAll c isSelected).history = c.history := by
  refine ⟨rfl, ?_, rfl, ?_⟩
  · simp [isAllSelected, onSelectAll]
  · intro b
    exact ⟨rfl, rfl, rfl⟩

/-! ## URL synchronisation -/

/-- C8: `updateUrl` writes the history only through `history.replace` (the
entries below the current one are never changed) and only when
`'?' + encodeQueryString(params)` differs from the current `location.search`;
hence, of two successive successful loads whose parameters encode
identically, the second leaves the history and location unchanged, and the
two together invoke `history.replace` at most once. -/
theorem updateUrl_idempotent_replace (env : Env) (c : Component)
    (params1 params2 : Obj) (order1 order2 : String) (data1 data2 : Response)
    (h1 : getProp params1 "order_by" = Val.str order1)
    (h2 : getProp params2 "order_by" = Val.str order2)
    (henc : env.encodeQueryString params1 = env.encodeQueryString params2) :
    (updateUrl env c params1).state = c.state ∧
    (updateUrl env c params1).history.past = c.history.past ∧
    ("?" ++ env.encodeQueryString params1 = c.history.location.search →
      updateUrl env c params1 = c) ∧
    ("?" ++ env.encodeQueryString params1 ≠ c.history.location.search →
      (updateUrl env c params1).history =
        { past := c.history.past
          location :=
            { pathname := "/organizations", search := "?" ++ env.encodeQueryString params1 }
          replaceCount := c.history.replaceCount + 1 }) ∧
    ∃ c1 c2, fetchOrganizations env c params1 (Outcome.resolved data1) = some c1 ∧
      fetchOrganizations env c1 params2 (Outcome.resolved data2) = some c2 ∧
      c2.history = c1.history ∧
      c2.history.past = c.history.past ∧
      c2.history.replaceCount ≤ c.history.replaceCount + 1 := by
  refine ⟨updateUrl_state env c params1, ?_, ?_, ?_, ?_⟩
  · rw [updateUrl_history]
    split <;> rfl
  · intro heq
    simp [updateUrl, heq]
  · intro hne
    rw [updateUrl_history, if_pos hne]
    rfl
  · obtain ⟨a1, p1, hstart1, hhist1, hq1, -, -⟩ := fetchStart_spec c params1 order1 h1
    obtain ⟨a2, p2, hstart2, hhist2, hq2, -, -⟩ :=
      fetchStart_spec (fetchSettle env a1 p1 (Outcome.resolved data1)) params2 order2 h2
    have hfirst : (fetchSettle env a1 p1 (Outcome.resolved data1)).history
        = (updateUrl env c params1).history := by
      rw [fetchSettle_resolved_history, updateUrl_history, updateUrl_history, hhist1, hq1]
    have hsearch : a2.history.location.search = "?" ++ env.encodeQueryString p2.queryParams := by
      rw [hhist2, hfirst, updateUrl_search, hq2, henc]
    have hsecond : (fetchSettle env a2 p2 (Outcome.resolved data2)).history
        = (fetchSettle env a1 p1 (Outcome.resolved data1)).history := by
      rw [fetchSettle_resolved_history, updateUrl_history, ← hsearch, hhist2]
      simp
    refine ⟨fetchSettle env a1 p1 (Outcome.resolved data1),
      fetchSettle env a2 p2 (Outcome.resolved data2), ?_, ?_, hsecond, ?_, ?_⟩
    · simp only [fetchOrganizations, hstart1]
    · simp only [fetchOrganizations, hstart2]
    · rw [hsecond, hfirst, updateUrl_history]
      split <;> rfl
    · rw [hsecond, hfirst, updateUrl_history]
      split
      · exact Nat.le_refl _
      · exact Nat.le_succ _

theorem updateUrl_idempotent_replace_witness :
    (getProp defaultParams "order_by" = Val.str "name" ∧
      getProp defaultParams "order_by" = Val.str "name" ∧
      sampleEnv.encodeQueryString defaultParams = sampleEnv.encodeQueryString defaultParams) ∧
    ((updateUrl sampleEnv sampleLoaded defaultParams).state = sampleLoaded.state ∧
    (updateUrl sampleEnv sampleLoaded defaultParams).history.past = sampleLoaded.history.past ∧
    ("?" ++ sampleEnv.encodeQueryString defaultParams = sampleLoaded.history.location.search →
      updateUrl sampleEnv sampleLoaded defaultParams = sampleLoaded) ∧
    ("?" ++ sampleEnv.encodeQueryString defaultParams ≠ sampleLoaded.history.location.search →
      (updateUrl sampleEnv sampleLoaded defaultParams).history =
        { past := sampleLoaded.history.past
          location :=
            { pathname := "/organizations"
              search := "?" ++ sampleEnv.encodeQueryString defaultParams }
          replaceCount := sampleLoaded.history.replaceCount + 1 }) ∧
    ∃ c1 c2, fetchOrganizations sampleEnv sampleLoaded defaultParams
        (Outcome.resolved sampleResponseA) = some c1 ∧
      fetchOrganizations sampleEnv c1 defaultParams (Outcome.resolved sampleResponseA)
        = some c2 ∧
      c2.history = c1.history ∧
      c2.history.past = sampleLoaded.history.past ∧
      c2.history.replaceCount ≤ sampleLoaded.history.replaceCount + 1) :=
  ⟨⟨by decide, by decide, rfl⟩,
    updateUrl_idempotent_replace sampleEnv sampleLoaded defaultParams defaultParams
      "name" "name" sampleResponseA sampleResponseA (by decide) (by decide) rfl⟩

end Organizations
